import Mathlib

/-!
Verification development for the bristol_gate aggregation and
feature-synthesis pipeline.

The Python source is shallowly embedded: Polars/pandas float series are
modelled either as `List (Option ℚ)` (null-aware rational values; the
claims under study never exercise NaN payloads inside base data) or, where
IEEE infinities are observable (division rules, YoY ratios), as lists of
`EVal`, an extended value domain with null, ±infinity and NaN.  Dates are
modelled as explicit year/month/day triples ordered through an injective
integer key.  External library calls (the scipy Savitzky-Golay core) are
modelled as an explicit function parameter so that every branch of the
surrounding Python code remains visible.
-/

/-- Extended value domain of a Polars Float64 column entry: missing value,
finite rational, positive/negative infinity, or NaN. -/
inductive EVal where
  | null : EVal
  | num : ℚ → EVal
  | pinf : EVal
  | ninf : EVal
  | nan : EVal
deriving DecidableEq, Repr

namespace EVal

/-- Polars addition: null propagates, then IEEE-754 rules. -/
def add : EVal → EVal → EVal
  | null, _ => null
  | _, null => null
  | nan, _ => nan
  | _, nan => nan
  | num a, num b => num (a + b)
  | num _, pinf => pinf
  | pinf, num _ => pinf
  | num _, ninf => ninf
  | ninf, num _ => ninf
  | pinf, pinf => pinf
  | ninf, ninf => ninf
  | pinf, ninf => nan
  | ninf, pinf => nan

/-- IEEE negation with null propagation. -/
def neg : EVal → EVal
  | null => null
  | nan => nan
  | num a => num (-a)
  | pinf => ninf
  | ninf => pinf

/-- Polars subtraction. -/
def sub (a b : EVal) : EVal := a.add b.neg

/-- Polars multiplication: null propagates, then IEEE-754 rules
(zero times infinity is NaN). -/
def mul : EVal → EVal → EVal
  | null, _ => null
  | _, null => null
  | nan, _ => nan
  | _, nan => nan
  | num a, num b => num (a * b)
  | num a, pinf => if 0 < a then pinf else if a < 0 then ninf else nan
  | pinf, num a => if 0 < a then pinf else if a < 0 then ninf else nan
  | num a, ninf => if 0 < a then ninf else if a < 0 then pinf else nan
  | ninf, num a => if 0 < a then ninf else if a < 0 then pinf else nan
  | pinf, pinf => pinf
  | ninf, ninf => pinf
  | pinf, ninf => ninf
  | ninf, pinf => ninf

/-- Polars division: null propagates; a finite value divided by zero is a
signed infinity (NaN for 0/0), a finite value divided by infinity is 0. -/
def div : EVal → EVal → EVal
  | null, _ => null
  | _, null => null
  | nan, _ => nan
  | _, nan => nan
  | num a, num b =>
      if b = 0 then (if 0 < a then pinf else if a < 0 then ninf else nan)
      else num (a / b)
  | num _, pinf => num 0
  | num _, ninf => num 0
  | pinf, num b => if b < 0 then ninf else pinf
  | ninf, num b => if b < 0 then pinf else ninf
  | pinf, pinf => nan
  | pinf, ninf => nan
  | ninf, pinf => nan
  | ninf, ninf => nan

end EVal

/-- Expression language of the aggregation catalog
(`AggregateSeriesCreator._get_aggregations_config`): column references,
rational literals, the four arithmetic operators, and Polars
`.replace(0, None)` which maps the exact value 0 to null. -/
inductive AggExpr where
  | col : String → AggExpr
  | lit : ℚ → AggExpr
  | add : AggExpr → AggExpr → AggExpr
  | sub : AggExpr → AggExpr → AggExpr
  | mul : AggExpr → AggExpr → AggExpr
  | div : AggExpr → AggExpr → AggExpr
  | replaceZeroWithNull : AggExpr → AggExpr
deriving DecidableEq, Repr

/-- Row-wise evaluation of an aggregation expression against a valuation of
column names. -/
def evalAgg (row : String → EVal) : AggExpr → EVal
  | .col n => row n
  | .lit q => .num q
  | .add a b => (evalAgg row a).add (evalAgg row b)
  | .sub a b => (evalAgg row a).sub (evalAgg row b)
  | .mul a b => (evalAgg row a).mul (evalAgg row b)
  | .div a b => (evalAgg row a).div (evalAgg row b)
  | .replaceZeroWithNull e =>
      match evalAgg row e with
      | .num q => if q = 0 then .null else .num q
      | v => v

/-- One entry of the aggregation catalog: derived column name, required
component columns, the rule, and its metadata strings. -/
structure AggDef where
  name : String
  components : List String
  expr : AggExpr
  description : String
  unit : String
deriving DecidableEq, Repr

/-- The full ordered aggregation catalog, transcribed from
`AggregateSeriesCreator._get_aggregations_config`. -/
def aggregationsConfig : List AggDef :=
  [ ⟨"RSALESAGG", ["RRSFS", "RSALES"],
      .div (.add (.col "RRSFS") (.col "RSALES")) (.lit 2),
      "Real Retail and Food Services Sales (Mean of RRSFS and RSALES)",
      "Millions of Dollars"⟩,
    ⟨"BUSLOANS_minus_BUSLOANSNSA", ["BUSLOANS", "BUSLOANSNSA"],
      .sub (.col "BUSLOANS") (.col "BUSLOANSNSA"),
      "Business Loans (Monthly) SA - NSA",
      "Billions of U.S. Dollars"⟩,
    ⟨"BUSLOANS_minus_BUSLOANSNSA_by_GDP", ["BUSLOANS_minus_BUSLOANSNSA", "GDP"],
      .mul (.div (.col "BUSLOANS_minus_BUSLOANSNSA") (.col "GDP")) (.lit 100),
      "Business Loans (Monthly) SA - NSA divided by GDP",
      "Percent"⟩,
    ⟨"BUSLOANS_by_GDP", ["BUSLOANS", "GDP"],
      .mul (.div (.col "BUSLOANS") (.col "GDP")) (.lit 100),
      "Business Loans (Monthly, SA) Normalized by GDP",
      "Percent"⟩,
    ⟨"BUSLOANS_INTEREST", ["BUSLOANS", "DGS10"],
      .div (.mul (.col "BUSLOANS") (.col "DGS10")) (.lit 100),
      "Business Loans (Monthly, SA) Adjusted Interest Burdens (using DGS10)",
      "Calculated Billions of U.S. Dollars"⟩,
    ⟨"BUSLOANS_INTEREST_by_GDP", ["BUSLOANS_INTEREST", "GDP"],
      .mul (.div (.col "BUSLOANS_INTEREST") (.col "GDP")) (.lit 100),
      "Business Loans (Monthly, SA) Adjusted Interest Burden Divided by GDP",
      "Percent"⟩,
    ⟨"W875RX1_by_GDP", ["W875RX1", "GDP"],
      .mul (.div (.col "W875RX1") (.col "GDP")) (.lit 100),
      "Real Personal Income Normalized by GDP",
      "Percent"⟩,
    ⟨"PI_by_GDP", ["PI", "GDP"],
      .mul (.div (.col "PI") (.col "GDP")) (.lit 100),
      "Personal Income (SA) Normalized by GDP",
      "Percent"⟩,
    ⟨"CPROFIT_by_GDP", ["CPROFIT", "GDP"],
      .mul (.div (.col "CPROFIT") (.col "GDP")) (.lit 100),
      "National income: Corporate profits before tax (with IVA and CCAdj) Normalized by GDP",
      "Percent"⟩,
    ⟨"TOTLNNSA", ["BUSLOANS", "REALLNNSA", "CONSUMERNSA"],
      .add (.add (.col "BUSLOANS") (.col "REALLNNSA")) (.col "CONSUMERNSA"),
      "Total Loans, Not Seasonally Adjusted (BUSLOANS + REALLNNSA + CONSUMERNSA)",
      "Billions of U.S. Dollars"⟩,
    ⟨"TOTLNNSA_by_GDP", ["TOTLNNSA", "GDP"],
      .mul (.div (.col "TOTLNNSA") (.col "GDP")) (.lit 100),
      "Total Loans, Not Seasonally Adjusted, divided by GDP",
      "Percent"⟩,
    ⟨"WRESBAL_by_GDP", ["WRESBAL", "GDP"],
      .mul (.div (.col "WRESBAL") (.col "GDP")) (.lit 100),
      "Reserve Balances with Federal Reserve Banks Divided by GDP",
      "Percent"⟩,
    ⟨"DGS30_to_DGS10", ["DGS30", "DGS10"],
      .sub (.col "DGS30") (.col "DGS10"),
      "Yield Curve: 30-Year Treasury Constant Maturity Minus 10-Year Treasury Constant Maturity",
      "Percent"⟩,
    ⟨"DGS10_to_DGS2", ["DGS10", "DGS2"],
      .sub (.col "DGS10") (.col "DGS2"),
      "Yield Curve: 10-Year Treasury Constant Maturity Minus 2-Year Treasury Constant Maturity",
      "Percent"⟩,
    ⟨"DGS10_to_TB3MS", ["DGS10", "TB3MS"],
      .sub (.col "DGS10") (.col "TB3MS"),
      "Yield Curve: 10-Year Treasury Constant Maturity Minus 3-Month Treasury Bill Secondary Market Rate",
      "Percent"⟩,
    ⟨"AAA_div_DGS10", ["AAA", "DGS10"],
      .div (.col "AAA") (.col "DGS10"),
      "Moody's Seasoned Aaa Corporate Bond Yield Relative to 10-Year Treasury Constant Maturity (AAA/DGS10)",
      "Ratio"⟩,
    ⟨"UNEMPLOY_by_POPTHM", ["UNEMPLOY", "POPTHM"],
      .mul (.div (.col "UNEMPLOY") (.col "POPTHM")) (.lit 100),
      "Unemployment Level (SA) / Population",
      "%"⟩,
    ⟨"U6_to_U3", ["U6RATE", "UNRATE"],
      .sub (.col "U6RATE") (.col "UNRATE"),
      "U-6 Unemployment Rate Minus U-3 Unemployment Rate (U6RATE - UNRATE)",
      "%"⟩,
    ⟨"DCOILWTICO_by_PPIACO", ["DCOILWTICO", "PPIACO"],
      .div (.col "DCOILWTICO") (.col "PPIACO"),
      "Crude Oil WTI Price Normalized by Producer Price Index: All Commodities",
      "$/bbl/Index"⟩,
    ⟨"GDP_by_POPTHM", ["GDP", "POPTHM"],
      .div (.mul (.col "GDP") (.lit 1000000)) (.col "POPTHM"),
      "GDP per Capita",
      "$/person"⟩,
    ⟨"GDP_by_CPIAUCSL", ["GDP", "CPIAUCSL"],
      .div (.col "GDP") (.div (.col "CPIAUCSL") (.lit 100)),
      "GDP Deflated by CPI (CPIAUCSL)",
      "Billions of Constant Dollars"⟩,
    ⟨"GDP_by_CPIAUCSL_by_POPTHM", ["GDP_by_CPIAUCSL", "POPTHM"],
      .div (.mul (.col "GDP_by_CPIAUCSL") (.lit 1000000)) (.col "POPTHM"),
      "GDP Deflated by CPI, per Capita",
      "Constant $/Person"⟩,
    ⟨"GSPC_Close_by_MDY_Close", ["^GSPC_close", "MDY_close"],
      .div (.col "^GSPC_close") (.col "MDY_close"),
      "S&P 500 Close Normalized by S&P MidCap 400 Close",
      "Ratio"⟩,
    ⟨"QQQ_Close_by_MDY_Close", ["QQQ_close", "MDY_close"],
      .div (.col "QQQ_close") (.col "MDY_close"),
      "Nasdaq 100 Close (QQQ) Normalized by S&P MidCap 400 Close",
      "Ratio"⟩,
    ⟨"GSPC_DailySwing", ["^GSPC_high", "^GSPC_low", "^GSPC_open"],
      .div (.sub (.col "^GSPC_high") (.col "^GSPC_low"))
           (.replaceZeroWithNull (.col "^GSPC_open")),
      "S&P 500 (GSPC) Daily Swing: (High - Low) / Open",
      "Ratio"⟩,
    ⟨"GSPC_Close_by_GDPDEF", ["^GSPC_close", "GDPDEF"],
      .div (.col "^GSPC_close") (.div (.col "GDPDEF") (.lit 100)),
      "S&P 500 (GSPC) Close Deflated by GDP Deflator",
      "Constant Dollars"⟩,
    ⟨"GSPC_open_by_GDPDEF", ["^GSPC_open", "GDPDEF"],
      .div (.col "^GSPC_open") (.div (.col "GDPDEF") (.lit 100)),
      "S&P 500 (GSPC) Open Deflated by GDP Deflator",
      "Constant Dollars"⟩,
    ⟨"HOUST_div_POPTHM", ["HOUST", "POPTHM"],
      .div (.col "HOUST") (.col "POPTHM"),
      "Housing Starts per Capita (Thousands of Units SAAR / Thousands of Persons)",
      "Starts per 1000 Persons"⟩,
    ⟨"MSPUS_times_HOUST", ["MSPUS", "HOUST"],
      .div (.mul (.col "MSPUS") (.col "HOUST")) (.lit 1000),
      "Median Sales Price of New Houses Sold times Housing Starts (Value of New Construction Started)",
      "Millions of Dollars"⟩,
    ⟨"FARMINCOME_by_GDP", ["USDA_NET_FARM_INCOME", "GDP"],
      .mul (.div (.col "USDA_NET_FARM_INCOME") (.col "GDP")) (.lit 100),
      "Farm Income (Annual, NSA) Divided by GDP",
      "Percent"⟩,
    ⟨"GSG_Close_by_GDPDEF", ["GSG_close", "GDPDEF"],
      .div (.col "GSG_close") (.col "GDPDEF"),
      "GSCI Commodity-Indexed Trust (GSG Close) Normalized by GDP Deflator",
      "Ratio"⟩,
    ⟨"GSG_Close_by_GSPC_Close", ["GSG_close", "^GSPC_close"],
      .div (.col "GSG_close") (.col "^GSPC_close"),
      "GSCI Commodity-Indexed Trust (GSG Close) Normalized by S&P 500 Close (GSPC Close)",
      "Ratio"⟩ ]

/-- A wide Polars frame for the aggregation stage: a fixed row count and
named columns of extended values. -/
structure PolarsDF where
  height : ℕ
  cols : List (String × List EVal)
deriving Repr

/-- Value of column `n` in row `i` (null when absent or out of range;
the missing-column case is unreachable behind the component check). -/
def colValue (df : PolarsDF) (n : String) (i : ℕ) : EVal :=
  match df.cols.find? (fun p => p.1 = n) with
  | some p => p.2.getD i .null
  | none => .null

/-- Column produced by evaluating an aggregation expression over a frame. -/
def evalColumn (df : PolarsDF) (e : AggExpr) : List EVal :=
  (List.range df.height).map (fun i => evalAgg (fun n => colValue df n i) e)

/-- Metadata record appended for each successfully created aggregate series
(the fields inserted into the DuckDB symbols table). -/
structure SymbolMeta where
  symbol : String
  source : String
  description : String
  unit : String
deriving DecidableEq, Repr

/-- One iteration of the `create_aggregate_series` loop: skip the
definition when any component column is missing, otherwise append the
evaluated column and one metadata record. -/
def aggStep (st : PolarsDF × List SymbolMeta) (d : AggDef) : PolarsDF × List SymbolMeta :=
  if d.components.any (fun c => !((st.1.cols.map Prod.fst).contains c)) then
    st
  else
    (⟨st.1.height, st.1.cols ++ [(d.name, evalColumn st.1 d.expr)]⟩,
     st.2 ++ [⟨d.name, "Calc", d.description, d.unit⟩])

/-- The `create_aggregate_series` driver: an empty frame is returned
unchanged, otherwise the catalog is folded over the frame in order. -/
def create_aggregate_series (df : PolarsDF) : PolarsDF × List SymbolMeta :=
  if df.height = 0 then (df, [])
  else aggregationsConfig.foldl aggStep (df, [])

/-- Entry of a nullable series at index `i` (null when out of range). -/
def entry (l : List (Option ℚ)) (i : ℕ) : Option ℚ := l.getD i none

/-- Index and value of the last non-null entry at index at most `i`. -/
def prevVal (l : List (Option ℚ)) : ℕ → Option (ℕ × ℚ)
  | 0 => match entry l 0 with
         | some q => some (0, q)
         | none => none
  | i + 1 => match entry l (i + 1) with
         | some q => some (i + 1, q)
         | none => prevVal l i

/-- Index and value of the first non-null entry of a series. -/
def firstSome : List (Option ℚ) → Option (ℕ × ℚ)
  | [] => none
  | none :: t => (firstSome t).map (fun p => (p.1 + 1, p.2))
  | some q :: _ => some (0, q)

/-- Index and value of the first non-null entry at index at least `i`. -/
def nextVal (l : List (Option ℚ)) (i : ℕ) : Option (ℕ × ℚ) :=
  (firstSome (l.drop i)).map (fun p => (i + p.1, p.2))

/-- Pointwise linear interpolation with both-direction boundary fill, the
behaviour of pandas `interpolate(method='linear', limit_direction='both')`
on equally spaced samples: interior nulls are interpolated between the
surrounding non-null values, leading nulls take the first non-null value,
trailing nulls take the last non-null value. -/
def interpBothAt (l : List (Option ℚ)) (i : ℕ) : Option ℚ :=
  match entry l i with
  | some q => some q
  | none =>
    match prevVal l i, nextVal l i with
    | some (j, a), some (k, b) =>
        some (a + (b - a) * (((i : ℚ) - (j : ℚ)) / ((k : ℚ) - (j : ℚ))))
    | some (_, a), none => some a
    | none, some (_, b) => some b
    | none, none => none

/-- pandas `interpolate(method='linear', limit_direction='both')`. -/
def pandasInterpolateBoth (l : List (Option ℚ)) : List (Option ℚ) :=
  (List.range l.length).map (interpBothAt l)

/-- Pointwise Polars `Series.interpolate`: interior nulls only, leading and
trailing nulls are left in place. -/
def interpInteriorAt (l : List (Option ℚ)) (i : ℕ) : Option ℚ :=
  match entry l i with
  | some q => some q
  | none =>
    match prevVal l i, nextVal l i with
    | some (j, a), some (k, b) =>
        some (a + (b - a) * (((i : ℚ) - (j : ℚ)) / ((k : ℚ) - (j : ℚ))))
    | _, _ => none

/-- Polars `Series.interpolate` (linear, interior nulls only). -/
def polarsInterpolate (l : List (Option ℚ)) : List (Option ℚ) :=
  (List.range l.length).map (interpInteriorAt l)

/-- Polars `fill_null(strategy="backward")`: a null takes the next
non-null value. -/
def bfill (l : List (Option ℚ)) : List (Option ℚ) :=
  (List.range l.length).map (fun i =>
    match entry l i with
    | some q => some q
    | none => (nextVal l i).map Prod.snd)

/-- Polars `fill_null(strategy="forward")` and pandas `ffill`: each entry
takes the last non-null value at or before it. -/
def ffill (l : List (Option ℚ)) : List (Option ℚ) :=
  (List.range l.length).map (fun i => (prevVal l i).map Prod.snd)

/-- The null-preparation pass of `apply_savgol_filter` (line 29 of
`feature_utils.py`): `s.interpolate().fill_null(strategy="backward")
.fill_null(strategy="forward")`. -/
def processSeries (l : List (Option ℚ)) : List (Option ℚ) :=
  ffill (bfill (polarsInterpolate l))

/-- Numeric dtype of a Polars series, as far as the filter cares: float or
integer. -/
inductive NumDtype where
  | float : NumDtype
  | int : NumDtype
deriving DecidableEq, Repr

/-- Truncation toward zero, the value-level effect of casting Float64 to an
integer dtype with `strict=False`. -/
def ratTrunc (q : ℚ) : ℚ := if 0 ≤ q then (⌊q⌋ : ℚ) else (⌈q⌉ : ℚ)

/-- Cast one value back to the original numeric representation. -/
def castVal (dt : NumDtype) (q : ℚ) : ℚ :=
  match dt with
  | .float => q
  | .int => ratTrunc q

/-- A named, typed, nullable Polars series. -/
structure PSeries where
  name : String
  dtype : NumDtype
  data : List (Option ℚ)
deriving Repr

/-- Series built from data cast back to a dtype
(`pl.Series(name, arr).cast(dtype, strict=False)`). -/
def castSeries (dt : NumDtype) (nm : String) (l : List (Option ℚ)) : PSeries :=
  ⟨nm, dt, l.map (Option.map (castVal dt))⟩

/-- The window-resolution logic of `apply_savgol_filter` (lines 41 to 57):
a window not exceeding the polynomial order is raised to
`polyorder + 1 + (1 if polyorder is even)`, the window is then forced odd,
and a window exceeding the count `v` of valid samples is shrunk to `v`
(or `max 1 (v - 1)` when `v` is even). -/
def savgolResolvedWindow (w p v : ℕ) : ℕ :=
  let w1 := if w ≤ p then p + 1 + (if p % 2 = 0 then 1 else 0) else w
  let w2 := if w1 % 2 = 0 then w1 + 1 else w1
  if w2 > v then (if v % 2 ≠ 0 then v else max 1 (v - 1)) else w2

/-- Shallow embedding of `apply_savgol_filter` (`feature_utils.py`,
lines 9 to 82).  The scipy `savgol_filter` call is the explicit `core`
parameter, which may fail (`ValueError`) or return a filtered array; every
surrounding branch of the Python function is reproduced.  Valid samples
are counted as non-null entries (the NumPy conversion maps nulls to NaN;
the `getD 0` default is only reachable on positions that the preceding
all-null guards exclude). -/
def apply_savgol_filter
    (core : List ℚ → ℕ → ℕ → ℕ → Except String (List ℚ))
    (s : PSeries) (window_length polyorder deriv : ℕ) : PSeries :=
  if s.data.isEmpty then s
  else if s.data.all (fun o => o.isNone) then
    ⟨s.name, s.dtype, List.replicate s.data.length none⟩
  else
    let processed := processSeries s.data
    if processed.all (fun o => o.isNone) then
      ⟨s.name, s.dtype, List.replicate s.data.length none⟩
    else
      let s_np : List ℚ := processed.map (fun o => o.getD 0)
      let numValid := processed.countP (fun o => o.isSome)
      if numValid = 0 then
        ⟨s.name, s.dtype, List.replicate s.data.length none⟩
      else
        let wEff := savgolResolvedWindow window_length polyorder numValid
        if wEff ≤ polyorder then
          castSeries s.dtype s.name processed
        else
          match core s_np wEff polyorder deriv with
          | .ok arr => castSeries s.dtype s.name (arr.map some)
          | .error _ => castSeries s.dtype s.name processed

/-- A pandas wide frame for the normalization stage: a date index (days as
integers) and named nullable columns aligned with the index. -/
structure WideGrid where
  index : List ℤ
  cols : List (String × List (Option ℚ))
deriving Repr

/-- The daily date spine `pd.date_range(start, end, freq='D')` as day
numbers. -/
def dateRange (lo hi : ℤ) : List ℤ :=
  List.map (fun k : ℕ => lo + (k : ℤ)) (List.range (hi - lo + 1).toNat)

/-- Row lookup used by `reindex`: the value a column held at date `d` in
the original frame, null when the date was absent.  (The pivot guarantees
a duplicate-free index; lookup takes the first occurrence.) -/
def lookupRow (idx : List ℤ) (c : List (Option ℚ)) (d : ℤ) : Option ℚ :=
  match idx.indexOf? d with
  | some j => entry c j
  | none => none

/-- The reindexing step of `DuckDBInterpolator.interpolate_and_process`
(lines 312 to 320): when the index has a minimum and maximum, rebuild the
frame over the full daily range between them. -/
def reindexDaily (g : WideGrid) : WideGrid :=
  match g.index.min?, g.index.max? with
  | some lo, some hi =>
      let idx := dateRange lo hi
      ⟨idx, g.cols.map (fun p => (p.1, idx.map (fun d => lookupRow g.index p.2 d)))⟩
  | _, _ => g

/-- Shallow embedding of `DuckDBInterpolator.interpolate_and_process`
(lines 290 to 344): an empty frame passes through; otherwise reindex to
daily frequency, forward-fill the designated recession-indicator column,
and linearly interpolate every other (numeric) column with
`limit_direction='both'`. -/
def interpolate_and_process (g : WideGrid) (usrec_symbol : String) : WideGrid :=
  if g.index.isEmpty then g
  else
    let g' := reindexDaily g
    ⟨g'.index,
     g'.cols.map (fun p =>
       (p.1, if p.1 = usrec_symbol then ffill p.2 else pandasInterpolateBoth p.2))⟩

/-- A calendar date; ordering goes through the injective key below, under
which well-formed dates compare exactly as real dates do. -/
structure SDate where
  year : ℤ
  month : ℤ
  day : ℤ
deriving DecidableEq, Repr

/-- Injective order key: months count 1 to 12 and days 1 to 31, so the
mixed radix with base 32 is strictly monotone in (year, month, day). -/
def SDate.key (x : SDate) : ℤ := (x.year * 12 + (x.month - 1)) * 32 + x.day

/-- Polars `dt.month_start`. -/
def SDate.monthStart (x : SDate) : SDate := ⟨x.year, x.month, 1⟩

/-- Polars `dt.offset_by("-1y")` on a month-start date (day 1, so no
month-length clamping arises). -/
def SDate.minus1y (x : SDate) : SDate := ⟨x.year - 1, x.month, x.day⟩

/-- Polars `dt.offset_by("-1mo")` on a month-start date. -/
def SDate.minus1mo (x : SDate) : SDate :=
  if x.month = 1 then ⟨x.year - 1, 12, x.day⟩ else ⟨x.year, x.month - 1, x.day⟩

/-- One row of `df_recession`: initiation-window bounds and the aligned
recession start and end dates. -/
structure RecessionRow where
  initStart : SDate
  initEnd : SDate
  start : SDate
  endDate : SDate
deriving DecidableEq, Repr

/-- Placeholder date for unreachable out-of-range list accesses. -/
def dummyDate : SDate := ⟨0, 1, 1⟩

/-- End-date alignment of `add_recession_features` (lines 77 to 86): the
leading end date is discarded when it closes an episode begun before the
observed window, and a synthetic terminal end date (the current date) is
appended when the final episode is still open. -/
def alignedEnds (starts ends0 : List SDate) (today : SDate) : List SDate :=
  let ends1 := match ends0, starts with
    | e :: rest, s :: _ => if e.key < s.key then rest else ends0
    | _, _ => ends0
  if ends1.length < starts.length then ends1 ++ [today] else ends1

/-- Rows of `df_recession` before the grid-minimum filter
(`recession.py` lines 72 to 101): initiation windows derived from the
start dates, the aligned end dates, and everything truncated to the
common aligned length. -/
def buildRecessionRows (starts ends0 : List SDate) (today : SDate) : List RecessionRow :=
  let initStarts := starts.map (fun s => s.monthStart.minus1y)
  let initEnds := starts.map (fun s => s.monthStart.minus1mo)
  let ends2 := alignedEnds starts ends0 today
  let maxLen := min (min initStarts.length initEnds.length)
                    (min starts.length ends2.length)
  (List.range maxLen).map (fun i =>
    ⟨initStarts.getD i dummyDate, initEnds.getD i dummyDate,
     starts.getD i dummyDate, ends2.getD i dummyDate⟩)

/-- The retained episodes: rows whose start date is at or after the grid's
earliest date (`recession.py` lines 103 to 105). -/
def retainedRows (dates starts ends0 : List SDate) (today : SDate) : List RecessionRow :=
  let rows := buildRecessionRows starts ends0 today
  match (dates.map SDate.key).min? with
  | some mk => rows.filter (fun r => mk ≤ r.start.key)
  | none => rows

/-- One `when/then/otherwise` pass over the grid for a single episode
(`recession.py` lines 110 to 118): days strictly inside the initiation
window are flagged 1, every other day keeps its previous flag.  (The
null-bounds guard of the source is vacuous here: window bounds derived
from non-null start dates are never null.) -/
def applyEpisode (dates : List SDate) (flags : List ℤ) (r : RecessionRow) : List ℤ :=
  List.zipWith
    (fun d f => if r.initStart.key < d.key ∧ d.key < r.initEnd.key then 1 else f)
    dates flags

/-- The `RecInit` column of `add_recession_features`: a zero column, then
one overwrite pass per retained episode in order. -/
def recInitFlags (dates starts ends0 : List SDate) (today : SDate) : List ℤ :=
  (retainedRows dates starts ends0 today).foldl
    (applyEpisode dates) (List.replicate dates.length 0)

/-- Metadata record emitted by the per-symbol feature generator (the
fields the claims inspect). -/
structure FeatureMeta where
  symbol : String
  source : String
  description : String
deriving DecidableEq, Repr

/-- Polars `Series.shift(n)`: the first `n` entries become null, the rest
take the value `n` positions earlier. -/
def seriesShift (v : List EVal) (n : ℕ) : List EVal :=
  (List.range v.length).map (fun i => if i < n then EVal.null else v.getD (i - n) EVal.null)

/-- Elementwise division of two series. -/
def seriesDiv (a b : List EVal) : List EVal := List.zipWith EVal.div a b

/-- The year-over-year transform
`((series / series.shift(lag)) - 1) * 100`. -/
def yoyVals (v : List EVal) (lag : ℕ) : List EVal :=
  (seriesDiv v (seriesShift v lag)).map
    (fun x => (x.sub (EVal.num 1)).mul (EVal.num 100))

/-- Shallow embedding of
`UnifiedDataPipeline._calculate_yoy_features_series` (lines 1043 to 1077):
three derived series at one, four and five year lags, each with one
metadata record. -/
def calculate_yoy_features_series (v : List EVal) (symbolStem : String)
    (description_r : String) (nDaysYear : ℕ) :
    List (String × List EVal) × List FeatureMeta :=
  ([ (symbolStem ++ "_YoY", yoyVals v nDaysYear),
     (symbolStem ++ "_YoY4", yoyVals v (nDaysYear * 4)),
     (symbolStem ++ "_YoY5", yoyVals v (nDaysYear * 5)) ],
   [ ⟨symbolStem ++ "_YoY", "Calc", description_r ++ "\nYear over Year"⟩,
     ⟨symbolStem ++ "_YoY4", "Calc", description_r ++ "\n4 Year over 4 Year"⟩,
     ⟨symbolStem ++ "_YoY5", "Calc", description_r ++ "\n5 Year over 5 Year"⟩ ])

/-- Polars `rolling_mean(window_size=w, min_periods=1)`: the mean of the
non-null values among the last `w` entries, null when the window holds no
value. -/
def rollingMeanMin1 (w : ℕ) (l : List (Option ℚ)) : List (Option ℚ) :=
  (List.range l.length).map (fun i =>
    let vals := ((l.take (i + 1)).drop (i + 1 - w)).reduceOption
    if vals.length = 0 then none else some (vals.sum / (vals.length : ℚ)))

/-- The moving-average window table of the feature generator. -/
def mvaConfigs (nDaysYear : ℕ) : List (String × ℕ) :=
  [("_mva365", nDaysYear), ("_mva200", 200), ("_mva050", 50)]

/-- Shallow embedding of
`UnifiedDataPipeline._calculate_mva_features_series` (lines 1107 to 1138):
per window, either the interpolated rolling mean with a "Calc" record, or
— when fewer non-null samples exist than the window size — a full-length
null column with a "Calc (Skipped)" record.  The column is emitted either
way. -/
def calculate_mva_features_series (v : List (Option ℚ)) (symbolStem : String)
    (description_r : String) (nDaysYear : ℕ) :
    List (String × List (Option ℚ)) × List FeatureMeta :=
  ((mvaConfigs nDaysYear).map (fun c =>
      if c.2 ≤ v.reduceOption.length then
        (symbolStem ++ c.1, polarsInterpolate (rollingMeanMin1 c.2 v))
      else
        (symbolStem ++ c.1, List.replicate v.length none)),
   (mvaConfigs nDaysYear).map (fun c =>
      if c.2 ≤ v.reduceOption.length then
        ⟨symbolStem ++ c.1, "Calc",
         description_r ++ " " ++ toString c.2 ++ " Day MA"⟩
      else
        ⟨symbolStem ++ c.1, "Calc (Skipped)",
         description_r ++ " " ++ toString c.2 ++ " Day MA - SKIPPED"⟩))

theorem entry_nil (i : ℕ) : entry [] i = none := by
  simp [entry]

theorem entry_cons_succ (a : Option ℚ) (t : List (Option ℚ)) (i : ℕ) :
    entry (a :: t) (i + 1) = entry t i := by
  simp [entry]

theorem entry_lt_length {l : List (Option ℚ)} {i : ℕ} {q : ℚ}
    (h : entry l i = some q) : i < l.length := by
  by_contra hge
  rw [entry, List.getD_eq_default] at h
  · exact Option.noConfusion h
  · omega

theorem entry_of_ge_length {l : List (Option ℚ)} {i : ℕ}
    (h : l.length ≤ i) : entry l i = none := by
  rw [entry, List.getD_eq_default] ; exact h

theorem entry_map_range {n i : ℕ} (f : ℕ → Option ℚ) (h : i < n) :
    entry ((List.range n).map f) i = f i := by
  simp [entry, List.getD_eq_getElem?_getD, List.getElem?_map, List.getElem?_range, h]

theorem prevVal_self {l : List (Option ℚ)} {i : ℕ} {q : ℚ}
    (h : entry l i = some q) : prevVal l i = some (i, q) := by
  cases i with
  | zero => simp [prevVal, h]
  | succ n => simp [prevVal, h]

theorem prevVal_sound {l : List (Option ℚ)} :
    ∀ {i j : ℕ} {a : ℚ}, prevVal l i = some (j, a) → entry l j = some a ∧ j ≤ i := by
  intro i
  induction i with
  | zero =>
    intro j a h
    rw [prevVal] at h
    rcases he : entry l 0 with _ | q <;> rw [he] at h <;> dsimp only at h
    · exact Option.noConfusion h
    · simp only [Option.some.injEq, Prod.mk.injEq] at h
      obtain ⟨rfl, rfl⟩ := h
      exact ⟨he, le_refl 0⟩
  | succ n ih =>
    intro j a h
    rw [prevVal] at h
    rcases he : entry l (n + 1) with _ | q <;> rw [he] at h <;> dsimp only at h
    · obtain ⟨h1, h2⟩ := ih h
      exact ⟨h1, Nat.le_succ_of_le h2⟩
    · simp only [Option.some.injEq, Prod.mk.injEq] at h
      obtain ⟨rfl, rfl⟩ := h
      exact ⟨he, le_refl _⟩

theorem prevVal_isSome {l : List (Option ℚ)} {j : ℕ} {q : ℚ}
    (h : entry l j = some q) : ∀ i, j ≤ i → (prevVal l i).isSome := by
  intro i
  induction i with
  | zero =>
    intro hle
    obtain rfl : j = 0 := Nat.le_zero.mp hle
    rw [prevVal_self h]
    rfl
  | succ n ih =>
    intro hle
    rcases Nat.eq_or_lt_of_le hle with rfl | hlt
    · rw [prevVal_self h] ; rfl
    · rw [prevVal]
      rcases he : entry l (n + 1) with _ | q'
      · exact ih (Nat.lt_succ_iff.mp hlt)
      · rfl

theorem firstSome_sound :
    ∀ {l : List (Option ℚ)} {j : ℕ} {a : ℚ}, firstSome l = some (j, a) → entry l j = some a := by
  intro l
  induction l with
  | nil => intro j a h ; exact Option.noConfusion h
  | cons hd t ih =>
    intro j a h
    cases hd with
    | none =>
      rw [firstSome] at h
      rcases hf : firstSome t with _ | p <;> rw [hf] at h <;> dsimp only [Option.map] at h
      · exact Option.noConfusion h
      · simp only [Option.some.injEq, Prod.mk.injEq] at h
        obtain ⟨rfl, rfl⟩ := h
        rw [entry_cons_succ]
        exact ih hf
    | some q =>
      rw [firstSome] at h
      simp only [Option.some.injEq, Prod.mk.injEq] at h
      obtain ⟨rfl, rfl⟩ := h
      simp [entry]

theorem firstSome_isSome :
    ∀ {l : List (Option ℚ)} {j : ℕ} {q : ℚ}, entry l j = some q → (firstSome l).isSome := by
  intro l
  induction l with
  | nil => intro j q h ; rw [entry_nil] at h ; exact Option.noConfusion h
  | cons hd t ih =>
    intro j q h
    cases hd with
    | none =>
      cases j with
      | zero => simp [entry] at h
      | succ n =>
        rw [entry_cons_succ] at h
        rw [firstSome]
        rcases hf : firstSome t with _ | p
        · have hs := ih h
          rw [hf] at hs
          exact absurd hs (by simp)
        · simp
    | some q' => simp [firstSome]

theorem entry_drop (l : List (Option ℚ)) (i k : ℕ) :
    entry (l.drop i) k = entry l (i + k) := by
  simp [entry, List.getD_eq_getElem?_getD, List.getElem?_drop]

theorem nextVal_sound {l : List (Option ℚ)} {i j : ℕ} {a : ℚ}
    (h : nextVal l i = some (j, a)) : entry l j = some a ∧ i ≤ j := by
  rw [nextVal] at h
  rcases hf : firstSome (l.drop i) with _ | p <;> rw [hf] at h <;> dsimp only [Option.map] at h
  · exact Option.noConfusion h
  · simp only [Option.some.injEq, Prod.mk.injEq] at h
    obtain ⟨rfl, rfl⟩ := h
    have := firstSome_sound hf
    rw [entry_drop] at this
    exact ⟨this, Nat.le_add_right _ _⟩

theorem nextVal_isSome {l : List (Option ℚ)} {j : ℕ} {q : ℚ}
    (h : entry l j = some q) {i : ℕ} (hij : i ≤ j) : (nextVal l i).isSome := by
  have hd : entry (l.drop i) (j - i) = some q := by
    rw [entry_drop]
    rwa [Nat.add_sub_cancel' hij]
  rw [nextVal]
  rcases hf : firstSome (l.drop i) with _ | p
  · exact absurd (firstSome_isSome hd) (by rw [hf] ; simp)
  · simp

theorem length_pandasInterpolateBoth (l : List (Option ℚ)) :
    (pandasInterpolateBoth l).length = l.length := by
  simp [pandasInterpolateBoth]

theorem length_polarsInterpolate (l : List (Option ℚ)) :
    (polarsInterpolate l).length = l.length := by
  simp [polarsInterpolate]

theorem length_bfill (l : List (Option ℚ)) : (bfill l).length = l.length := by
  simp [bfill]

theorem length_ffill (l : List (Option ℚ)) : (ffill l).length = l.length := by
  simp [ffill]

theorem length_processSeries (l : List (Option ℚ)) :
    (processSeries l).length = l.length := by
  simp [processSeries, length_ffill, length_bfill, length_polarsInterpolate]

theorem interpInteriorAt_of_some {l : List (Option ℚ)} {i : ℕ} {q : ℚ}
    (h : entry l i = some q) : interpInteriorAt l i = some q := by
  rw [interpInteriorAt, h]

theorem interpBothAt_of_some {l : List (Option ℚ)} {i : ℕ} {q : ℚ}
    (h : entry l i = some q) : interpBothAt l i = some q := by
  rw [interpBothAt, h]

theorem entry_polarsInterpolate_of_some {l : List (Option ℚ)} {i : ℕ} {q : ℚ}
    (h : entry l i = some q) : entry (polarsInterpolate l) i = some q := by
  rw [polarsInterpolate, entry_map_range _ (entry_lt_length h)]
  exact interpInteriorAt_of_some h

theorem entry_bfill_of_some {l : List (Option ℚ)} {i : ℕ} {q : ℚ}
    (h : entry l i = some q) : entry (bfill l) i = some q := by
  rw [bfill, entry_map_range _ (entry_lt_length h), h]

theorem entry_ffill_of_some {l : List (Option ℚ)} {i : ℕ} {q : ℚ}
    (h : entry l i = some q) : entry (ffill l) i = some q := by
  rw [ffill, entry_map_range _ (entry_lt_length h), prevVal_self h]
  rfl

theorem entry_processSeries_of_some {l : List (Option ℚ)} {i : ℕ} {q : ℚ}
    (h : entry l i = some q) : entry (processSeries l) i = some q := by
  rw [processSeries]
  exact entry_ffill_of_some (entry_bfill_of_some (entry_polarsInterpolate_of_some h))

theorem interpBothAt_isSome {l : List (Option ℚ)} {j : ℕ} {q : ℚ}
    (hj : entry l j = some q) (i : ℕ) : (interpBothAt l i).isSome := by
  rw [interpBothAt]
  rcases he : entry l i with _ | q'
  · rcases le_or_lt j i with hji | hij
    · have hp := prevVal_isSome hj i hji
      rcases hpv : prevVal l i with _ | ⟨j', a⟩
      · rw [hpv] at hp ; exact absurd hp (by simp)
      · rcases hnv : nextVal l i with _ | ⟨k, b⟩ <;> simp
    · have hn := nextVal_isSome hj (Nat.le_of_lt hij)
      rcases hnv : nextVal l i with _ | ⟨k, b⟩
      · rw [hnv] at hn ; exact absurd hn (by simp)
      · rcases hpv : prevVal l i with _ | ⟨j', a⟩ <;> simp
  · simp

theorem entry_pandasInterpolateBoth_isSome {l : List (Option ℚ)} {j : ℕ} {q : ℚ}
    (hj : entry l j = some q) {i : ℕ} (hi : i < l.length) :
    (entry (pandasInterpolateBoth l) i).isSome := by
  rw [pandasInterpolateBoth, entry_map_range _ hi]
  exact interpBothAt_isSome hj i

theorem interpBothAt_unique {l : List (Option ℚ)} {j : ℕ} {x : ℚ}
    (hj : entry l j = some x) (huniq : ∀ k, k ≠ j → entry l k = none)
    (i : ℕ) : interpBothAt l i = some x := by
  have hval : ∀ {k : ℕ} {a : ℚ}, entry l k = some a → a = x := by
    intro k a hk
    by_cases hkj : k = j
    · subst hkj
      rw [hk] at hj
      exact Option.some.inj hj
    · rw [huniq k hkj] at hk
      exact Option.noConfusion hk
  rw [interpBothAt]
  rcases he : entry l i with _ | q'
  · rcases hpv : prevVal l i with _ | ⟨j', a⟩ <;> rcases hnv : nextVal l i with _ | ⟨k, b⟩
    · rcases le_or_lt j i with hji | hij
      · have hp := prevVal_isSome hj i hji
        rw [hpv] at hp ; exact absurd hp (by simp)
      · have hn := nextVal_isSome hj (Nat.le_of_lt hij)
        rw [hnv] at hn ; exact absurd hn (by simp)
    · obtain rfl := hval (nextVal_sound hnv).1 ; rfl
    · obtain rfl := hval (prevVal_sound hpv).1 ; rfl
    · obtain rfl := hval (prevVal_sound hpv).1
      obtain rfl := hval (nextVal_sound hnv).1
      simp
  · obtain rfl := hval he ; rfl

theorem entry_ffill_leading {l : List (Option ℚ)} {i : ℕ}
    (h : ∀ k, k ≤ i → entry l k = none) : entry (ffill l) i = none := by
  rcases le_or_lt l.length i with hge | hlt
  · exact entry_of_ge_length (by rw [length_ffill] ; exact hge)
  · rw [ffill, entry_map_range _ hlt]
    rcases hpv : prevVal l i with _ | ⟨j, a⟩
    · rfl
    · obtain ⟨hja, hji⟩ := prevVal_sound hpv
      rw [h j hji] at hja
      exact Option.noConfusion hja

theorem entry_mem {l : List (Option ℚ)} {j : ℕ} {q : ℚ}
    (h : entry l j = some q) : (some q) ∈ l := by
  have hq : l.get? j = some (some q) := by
    rw [entry, List.getD_eq_getElem?_getD] at h
    rcases hg : l[j]? with _ | o
    · rw [hg] at h ; exact Option.noConfusion h
    · rw [hg] at h
      simp only [Option.getD] at h
      rw [List.get?_eq_getElem?, hg, h]
  exact List.get?_mem hq

theorem all_isNone_false_of_entry {l : List (Option ℚ)} {j : ℕ} {q : ℚ}
    (h : entry l j = some q) : l.all (fun o => o.isNone) = false := by
  rcases hall : l.all (fun o => o.isNone) with _ | _
  · rfl
  · have := List.all_eq_true.mp hall _ (entry_mem h)
    simp at this

theorem countP_isSome_pos_of_entry {l : List (Option ℚ)} {j : ℕ} {q : ℚ}
    (h : entry l j = some q) : l.countP (fun o => o.isSome) ≠ 0 := by
  have hpos : 0 < l.countP (fun o => o.isSome) :=
    List.countP_pos_iff.mpr ⟨some q, entry_mem h, by simp⟩
  omega

theorem getD_map_range {α : Type} (f : ℕ → α) {n i : ℕ} (h : i < n) (d : α) :
    ((List.range n).map f).getD i d = f i := by
  simp [List.getD_eq_getElem?_getD, List.getElem?_map, List.getElem?_range, h]

theorem getD_map {α β : Type} (f : α → β) {l : List α} {i : ℕ} (h : i < l.length)
    (da : α) (db : β) : (l.map f).getD i db = f (l.getD i da) := by
  simp [List.getD_eq_getElem?_getD, List.getElem?_map, List.getElem?_eq_getElem h]

theorem getD_zipWith {α β γ : Type} (f : α → β → γ) {a : List α} {b : List β} {i : ℕ}
    (ha : i < a.length) (hb : i < b.length) (da : α) (db : β) (dc : γ) :
    (List.zipWith f a b).getD i dc = f (a.getD i da) (b.getD i db) := by
  simp [List.getD_eq_getElem?_getD, List.getElem?_zipWith,
        List.getElem?_eq_getElem ha, List.getElem?_eq_getElem hb]

theorem getD_replicate_zero (n i : ℕ) : (List.replicate n (0 : ℤ)).getD i 0 = 0 := by
  rw [List.getD_eq_getElem?_getD, List.getElem?_replicate]
  split <;> rfl

/-- C4 (counterexample): the claim predicts that a requested window of 1
with polynomial order 2 (so `W ≤ P` with `P+1 = 3` odd) resolves to
`P+1 = 3`; the code resolves it to 5, because line 45 already adds an
extra 1 for even `P` and the parity bump then pushes the even result
`P+2` up to `P+3`. -/
theorem savgol_window_claimed_raise_cex :
    (1 ≤ 2 ∧ savgolResolvedWindow 1 2 100 = 5) ∧
      ¬ savgolResolvedWindow 1 2 100 = 2 + 1 := by
  decide

/-- C4 (amended): for `W ≤ P` with enough valid samples, the resolved
window is `P+2` when `P` is odd and `P+3` when `P` is even. -/
theorem savgol_window_raise (w p v : ℕ) (hwp : w ≤ p) (hv : p + 3 ≤ v) :
    savgolResolvedWindow w p v = if p % 2 = 0 then p + 3 else p + 2 := by
  unfold savgolResolvedWindow
  dsimp only
  split_ifs <;> omega

/-- Witness for `savgol_window_raise` at `W = 1`, `P = 2`, `V = 10`. -/
theorem savgol_window_raise_witness :
    1 ≤ 2 ∧ 2 + 3 ≤ 10 ∧
      savgolResolvedWindow 1 2 10 = if 2 % 2 = 0 then 2 + 3 else 2 + 2 :=
  ⟨by decide, by decide, savgol_window_raise 1 2 10 (by decide) (by decide)⟩

theorem castSeries_name (dt : NumDtype) (nm : String) (l : List (Option ℚ)) :
    (castSeries dt nm l).name = nm := rfl

theorem castSeries_dataLength (dt : NumDtype) (nm : String) (l : List (Option ℚ)) :
    (castSeries dt nm l).data.length = l.length := by
  simp [castSeries]

/-- C10: `apply_savgol_filter` preserves the length and the name of its
input series on every return branch, for every series (empty, all-null,
integer-typed, with interior nulls, degraded, or error-recovered) and
every core that returns arrays of the input length. -/
theorem savgol_preserves_shape
    (core : List ℚ → ℕ → ℕ → ℕ → Except String (List ℚ))
    (hcore : ∀ xs w p d ys, core xs w p d = .ok ys → ys.length = xs.length)
    (s : PSeries) (w p dv : ℕ) :
    (apply_savgol_filter core s w p dv).name = s.name ∧
      (apply_savgol_filter core s w p dv).data.length = s.data.length := by
  rw [apply_savgol_filter]
  dsimp only
  split_ifs with h1 h2 h3 h4 h5
  · exact ⟨rfl, rfl⟩
  · exact ⟨rfl, by simp⟩
  · exact ⟨rfl, by simp⟩
  · exact ⟨rfl, by simp⟩
  · exact ⟨castSeries_name .., by rw [castSeries_dataLength, length_processSeries]⟩
  · rcases hc : core ((processSeries s.data).map (fun o => o.getD 0))
        (savgolResolvedWindow w p ((processSeries s.data).countP (fun o => o.isSome))) p dv
      with e | arr
    · rw [hc]
      exact ⟨castSeries_name .., by rw [castSeries_dataLength, length_processSeries]⟩
    · rw [hc]
      refine ⟨castSeries_name .., ?_⟩
      rw [castSeries_dataLength, List.length_map, hcore _ _ _ _ _ hc,
          List.length_map, length_processSeries]

/-- Witness for `savgol_preserves_shape`: an identity core on an
integer-typed series with an interior null. -/
theorem savgol_preserves_shape_witness :
    (apply_savgol_filter (fun xs _ _ _ => Except.ok xs)
        ⟨"col", .int, [some 1, none, some 3]⟩ 5 2 0).name = "col" ∧
    (apply_savgol_filter (fun xs _ _ _ => Except.ok xs)
        ⟨"col", .int, [some 1, none, some 3]⟩ 5 2 0).data.length = 3 :=
  ⟨(savgol_preserves_shape (fun xs _ _ _ => Except.ok xs)
     (fun _ _ _ _ _ h => by cases h ; rfl) ⟨"col", .int, [some 1, none, some 3]⟩ 5 2 0).1,
   (savgol_preserves_shape (fun xs _ _ _ => Except.ok xs)
     (fun _ _ _ _ _ h => by cases h ; rfl) ⟨"col", .int, [some 1, none, some 3]⟩ 5 2 0).2⟩

/-- C2: on a non-empty column with at least one non-null value,
`apply_savgol_filter` degrades to the interpolated-and-boundary-filled
input column (cast back to the original dtype) instead of failing, both
when the resolved window still does not exceed the polynomial order and
when the filter core reports a numerical error. -/
theorem savgol_degrades
    (core : List ℚ → ℕ → ℕ → ℕ → Except String (List ℚ))
    (s : PSeries) (w p dv : ℕ) (j : ℕ) (q : ℚ)
    (hnn : entry s.data j = some q)
    (hdeg : savgolResolvedWindow w p ((processSeries s.data).countP (fun o => o.isSome)) ≤ p
      ∨ ∃ e, core ((processSeries s.data).map (fun o => o.getD 0))
          (savgolResolvedWindow w p ((processSeries s.data).countP (fun o => o.isSome))) p dv =
            .error e) :
    apply_savgol_filter core s w p dv = castSeries s.dtype s.name (processSeries s.data) := by
  have hne : s.data ≠ [] := by
    intro h
    rw [h, entry_nil] at hnn
    exact Option.noConfusion hnn
  have h1 : s.data.isEmpty = false := by
    rcases hli : s.data.isEmpty with _ | _
    · rfl
    · exact absurd (List.isEmpty_iff.mp hli) hne
  have h2 := all_isNone_false_of_entry hnn
  have hp := entry_processSeries_of_some hnn
  have h3 := all_isNone_false_of_entry hp
  have h4 := countP_isSome_pos_of_entry hp
  rw [apply_savgol_filter]
  dsimp only
  rw [h1, h2, h3]
  simp only [Bool.false_eq_true, if_false]
  rw [if_neg h4]
  by_cases h5 : savgolResolvedWindow w p ((processSeries s.data).countP (fun o => o.isSome)) ≤ p
  · rw [if_pos h5]
  · rw [if_neg h5]
    rcases hdeg with hdeg | ⟨e, herr⟩
    · exact absurd hdeg h5
    · rw [herr]

/-- Witness for `savgol_degrades`: a core that always fails on a
three-sample series. -/
theorem savgol_degrades_witness :
    entry [some (1 : ℚ), none, some 3] 0 = some 1 ∧
    apply_savgol_filter (fun _ _ _ _ => Except.error "LinAlgError")
        ⟨"col", .float, [some 1, none, some 3]⟩ 5 2 0 =
      castSeries .float "col" (processSeries [some (1 : ℚ), none, some 3]) :=
  ⟨by decide,
   savgol_degrades (fun _ _ _ _ => Except.error "LinAlgError")
     ⟨"col", .float, [some 1, none, some 3]⟩ 5 2 0 0 1 (by decide)
     (Or.inr ⟨"LinAlgError", rfl⟩)⟩

/-- C5: a catalog definition with any component absent from the frame's
current columns is a no-op for the fold state — no column is appended, no
metadata record is appended — and the fold simply continues with the
remaining definitions. -/
theorem aggregate_skip_missing (df : PolarsDF) (meta : List SymbolMeta)
    (d : AggDef) (rest : List AggDef)
    (h : ∃ c ∈ d.components, c ∉ df.cols.map Prod.fst) :
    aggStep (df, meta) d = (df, meta) ∧
      List.foldl aggStep (df, meta) (d :: rest) = List.foldl aggStep (df, meta) rest := by
  have hstep : aggStep (df, meta) d = (df, meta) := by
    obtain ⟨c, hc, hmiss⟩ := h
    have hany : (d.components.any (fun c => !((df.cols.map Prod.fst).contains c))) = true := by
      rw [List.any_eq_true]
      refine ⟨c, hc, ?_⟩
      rcases hcon : (df.cols.map Prod.fst).contains c with _ | _
      · rfl
      · exact absurd (List.elem_iff.mp hcon) hmiss
    rw [aggStep]
    rw [hany]
    rfl
  exact ⟨hstep, by rw [List.foldl_cons, hstep]⟩

/-- Witness for `aggregate_skip_missing`: a one-column frame and a
definition referencing an absent column. -/
theorem aggregate_skip_missing_witness :
    aggStep (⟨2, [("A", [EVal.num 1, EVal.num 2])]⟩, []) ⟨"X", ["GDP"], .col "GDP", "d", "u"⟩ =
      (⟨2, [("A", [EVal.num 1, EVal.num 2])]⟩, []) ∧
    List.foldl aggStep (⟨2, [("A", [EVal.num 1, EVal.num 2])]⟩, [])
        [⟨"X", ["GDP"], .col "GDP", "d", "u"⟩] =
      List.foldl aggStep (⟨2, [("A", [EVal.num 1, EVal.num 2])]⟩, []) [] := by
  refine ⟨?_, ?_⟩
  · exact (aggregate_skip_missing ⟨2, [("A", [EVal.num 1, EVal.num 2])]⟩ []
      ⟨"X", ["GDP"], .col "GDP", "d", "u"⟩ [] ⟨"GDP", by decide, by decide⟩).1
  · exact (aggregate_skip_missing ⟨2, [("A", [EVal.num 1, EVal.num 2])]⟩ []
      ⟨"X", ["GDP"], .col "GDP", "d", "u"⟩ [] ⟨"GDP", by decide, by decide⟩).2

/-- Concrete row used to exercise a zero denominator in a division rule. -/
def zeroGdpRow : String → EVal :=
  fun n => if n = "BUSLOANS" then .num 100 else if n = "GDP" then .num 0 else .null

/-- C3 (counterexample): the catalog's `BUSLOANS_by_GDP` rule is a
division-style rule, yet at a row where its denominator `GDP` is 0 (and
`BUSLOANS` is 100) it produces positive infinity, not null — the zero
denominator is not nulled out before dividing. -/
theorem division_rule_zero_denominator_cex :
    (aggregationsConfig.getD 3 ⟨"", [], .lit 0, "", ""⟩).name = "BUSLOANS_by_GDP" ∧
    evalAgg zeroGdpRow (aggregationsConfig.getD 3 ⟨"", [], .lit 0, "", ""⟩).expr = EVal.pinf ∧
    EVal.pinf ≠ EVal.null := by
  refine ⟨rfl, ?_, by decide⟩
  decide

/-- C3 (amended): only the `GSPC_DailySwing` rule nulls out its zero
denominator before dividing — whenever `^GSPC_open` is 0 (with any
numeric high and low) it produces null rather than an infinity. -/
theorem gspc_dailyswing_nulls_zero_denominator (row : String → EVal) (a b : ℚ)
    (hh : row "^GSPC_high" = .num a) (hl : row "^GSPC_low" = .num b)
    (ho : row "^GSPC_open" = .num 0) (d : AggDef)
    (hd : aggregationsConfig.find? (fun x => x.name == "GSPC_DailySwing") = some d) :
    evalAgg row d.expr = EVal.null := by
  have hfind : aggregationsConfig.find? (fun x => x.name == "GSPC_DailySwing") =
      some ⟨"GSPC_DailySwing", ["^GSPC_high", "^GSPC_low", "^GSPC_open"],
        .div (.sub (.col "^GSPC_high") (.col "^GSPC_low"))
             (.replaceZeroWithNull (.col "^GSPC_open")),
        "S&P 500 (GSPC) Daily Swing: (High - Low) / Open", "Ratio"⟩ := by
    decide
  rw [hfind] at hd
  obtain rfl := Option.some.inj hd
  simp only [evalAgg, hh, hl, ho]
  simp [EVal.sub, EVal.add, EVal.neg, EVal.div]

/-- Witness for `gspc_dailyswing_nulls_zero_denominator` at a concrete
row with open 0, high 8, low 5. -/
theorem gspc_dailyswing_witness :
    ((fun n => if n = "^GSPC_open" then EVal.num 0
       else if n = "^GSPC_high" then EVal.num 8 else EVal.num 5) "^GSPC_high" = EVal.num 8) ∧
    ((fun n => if n = "^GSPC_open" then EVal.num 0
       else if n = "^GSPC_high" then EVal.num 8 else EVal.num 5) "^GSPC_low" = EVal.num 5) ∧
    ((fun n => if n = "^GSPC_open" then EVal.num 0
       else if n = "^GSPC_high" then EVal.num 8 else EVal.num 5) "^GSPC_open" = EVal.num 0) ∧
    evalAgg (fun n => if n = "^GSPC_open" then EVal.num 0
       else if n = "^GSPC_high" then EVal.num 8 else EVal.num 5)
      (AggDef.mk "GSPC_DailySwing" ["^GSPC_high", "^GSPC_low", "^GSPC_open"]
        (.div (.sub (.col "^GSPC_high") (.col "^GSPC_low"))
             (.replaceZeroWithNull (.col "^GSPC_open")))
        "S&P 500 (GSPC) Daily Swing: (High - Low) / Open" "Ratio").expr = EVal.null :=
  ⟨by decide, by decide, by decide,
   gspc_dailyswing_nulls_zero_denominator _ 8 5 (by decide) (by decide) (by decide) _ (by decide)⟩

theorem dateRange_length {lo hi : ℤ} (h : lo ≤ hi) :
    (dateRange lo hi).length = (hi - lo).toNat + 1 := by
  rw [dateRange, List.length_map, List.length_range]
  omega

theorem dateRange_nodup (lo hi : ℤ) : (dateRange lo hi).Nodup := by
  rw [dateRange]
  refine List.Nodup.map ?_ (List.nodup_range _)
  intro a b hab
  simp only at hab
  omega

theorem dateRange_mem (lo hi d : ℤ) : d ∈ dateRange lo hi ↔ lo ≤ d ∧ d ≤ hi := by
  rw [dateRange]
  simp only [List.mem_map, List.mem_range]
  constructor
  · rintro ⟨k, hk, rfl⟩
    omega
  · rintro ⟨h1, h2⟩
    exact ⟨(d - lo).toNat, by omega, by omega⟩

theorem intList_min_le_max {l : List ℤ} {lo hi : ℤ}
    (hlo : l.min? = some lo) (hhi : l.max? = some hi) : lo ≤ hi := by
  haveI : Std.Antisymm (fun x1 x2 : ℤ => x1 ≤ x2) :=
    ⟨fun h1 h2 => le_antisymm h1 h2⟩
  have h1 := (List.min?_eq_some_iff (fun a => le_refl a) (fun a b => min_choice a b)
    (fun a b c => le_min_iff)).mp hlo
  have h2 := (List.max?_eq_some_iff (fun a => le_refl a) (fun a b => max_choice a b)
    (fun a b c => max_le_iff)).mp hhi
  exact h2.2 lo h1.1

/-- C1: for a non-empty wide table, the date index after reindexing to
daily frequency has exactly `(max_date - min_date).days + 1` entries, no
duplicate dates and no gaps (every calendar day between the minimum and
maximum observed date appears). -/
theorem grid_daily_index (g : WideGrid) (u : String) (lo hi : ℤ)
    (hlo : g.index.min? = some lo) (hhi : g.index.max? = some hi) :
    (interpolate_and_process g u).index.length = (hi - lo).toNat + 1 ∧
    (interpolate_and_process g u).index.Nodup ∧
    ∀ d : ℤ, d ∈ (interpolate_and_process g u).index ↔ lo ≤ d ∧ d ≤ hi := by
  have hne : g.index ≠ [] := by
    intro h
    rw [h] at hlo
    exact Option.noConfusion hlo
  have hemp : g.index.isEmpty = false := by
    rcases hli : g.index.isEmpty with _ | _
    · rfl
    · exact absurd (List.isEmpty_iff.mp hli) hne
  have hidx : (interpolate_and_process g u).index = dateRange lo hi := by
    rw [interpolate_and_process, hemp]
    simp only [Bool.false_eq_true, if_false]
    rw [reindexDaily, hlo, hhi]
  rw [hidx]
  exact ⟨dateRange_length (intList_min_le_max hlo hhi), dateRange_nodup lo hi,
         fun d => dateRange_mem lo hi d⟩

/-- Witness for `grid_daily_index` on a two-row grid over dates 1 and 3. -/
theorem grid_daily_index_witness :
    (WideGrid.mk [3, 1] [("A", [some 1, none])]).index.min? = some 1 ∧
    (WideGrid.mk [3, 1] [("A", [some 1, none])]).index.max? = some 3 ∧
    (interpolate_and_process ⟨[3, 1], [("A", [some 1, none])]⟩ "USREC").index.length = (3 - 1 : ℤ).toNat + 1 ∧
    (interpolate_and_process ⟨[3, 1], [("A", [some 1, none])]⟩ "USREC").index.Nodup ∧
    ((2 : ℤ) ∈ (interpolate_and_process ⟨[3, 1], [("A", [some 1, none])]⟩ "USREC").index ↔ 1 ≤ (2 : ℤ) ∧ (2 : ℤ) ≤ 3) := by
  have h := grid_daily_index ⟨[3, 1], [("A", [some 1, none])]⟩ "USREC" 1 3 (by decide) (by decide)
  exact ⟨by decide, by decide, h.1, h.2.1, h.2.2 2⟩

/-- C6: in the fill step, only the designated regime column is
forward-filled — and forward fill leaves leading nulls (before the first
observation) null — while every other column gets linear interpolation
with both-direction boundary fill, after which a column holding at least
one non-null value has no null left, and a column holding exactly one
non-null value is constant at that value on every row. -/
theorem fill_step_policy (g : WideGrid) (u : String) (hne : g.index ≠ []) :
    (interpolate_and_process g u).cols =
      (reindexDaily g).cols.map (fun p =>
        (p.1, if p.1 = u then ffill p.2 else pandasInterpolateBoth p.2)) ∧
    (∀ (c : List (Option ℚ)) (i : ℕ), (∀ k, k ≤ i → entry c k = none) →
        entry (ffill c) i = none) ∧
    (∀ (c : List (Option ℚ)) (j : ℕ) (q : ℚ), entry c j = some q →
        ∀ i, i < c.length → (entry (pandasInterpolateBoth c) i).isSome) ∧
    (∀ (c : List (Option ℚ)) (j : ℕ) (x : ℚ), entry c j = some x →
        (∀ k, k ≠ j → entry c k = none) →
        ∀ i, i < c.length → entry (pandasInterpolateBoth c) i = some x) := by
  refine ⟨?_, ?_, ?_, ?_⟩
  · have hemp : g.index.isEmpty = false := by
      rcases hli : g.index.isEmpty with _ | _
      · rfl
      · exact absurd (List.isEmpty_iff.mp hli) hne
    rw [interpolate_and_process, hemp]
    simp only [Bool.false_eq_true, if_false]
  · exact fun c i h => entry_ffill_leading h
  · exact fun c j q hj i hi => entry_pandasInterpolateBoth_isSome hj hi
  · intro c j x hj huniq i hi
    rw [pandasInterpolateBoth, entry_map_range _ hi]
    exact interpBothAt_unique hj huniq i

/-- Witness for `fill_step_policy` on a three-day grid with a regime
column and one single-observation column. -/
theorem fill_step_policy_witness :
    (interpolate_and_process ⟨[1, 2, 3], [("R", [none, some 1, none]), ("X", [none, some 5, none])]⟩ "R").cols =
      (reindexDaily ⟨[1, 2, 3], [("R", [none, some 1, none]), ("X", [none, some 5, none])]⟩).cols.map
        (fun p => (p.1, if p.1 = "R" then ffill p.2 else pandasInterpolateBoth p.2)) ∧
    entry (ffill [none, some 1, none]) 0 = none ∧
    entry (pandasInterpolateBoth [none, some 5, none]) 0 = some 5 := by
  have h := fill_step_policy ⟨[1, 2, 3], [("R", [none, some 1, none]), ("X", [none, some 5, none])]⟩
    "R" (by decide)
  refine ⟨h.1, ?_, ?_⟩
  · exact h.2.1 [none, some 1, none] 0 (fun k hk => by interval_cases k ; rfl)
  · exact h.2.2.2 [none, some 5, none] 1 5 (by decide) (fun k hk => by
      match k with
      | 0 => rfl
      | 1 => exact absurd rfl hk
      | 2 => rfl
      | n + 3 => exact entry_of_ge_length (by norm_num)) 0 (by decide)

/-- Short-circuit of `add_recession_features` (lines 64 to 70): with no
recession start dates at all, no flag column is produced and the data
passes through unchanged; otherwise the `RecInit` column is computed. -/
def add_recession_features_flags (dates starts ends0 : List SDate) (today : SDate) :
    Option (List ℤ) :=
  if starts.isEmpty then none else some (recInitFlags dates starts ends0 today)

theorem length_applyEpisode (dates : List SDate) (flags : List ℤ) (r : RecessionRow)
    (h : flags.length = dates.length) : (applyEpisode dates flags r).length = dates.length := by
  simp [applyEpisode, h]

theorem foldl_applyEpisode_getD (dates : List SDate) :
    ∀ (rows : List RecessionRow) (flags : List ℤ), flags.length = dates.length →
      ∀ i, i < dates.length →
      (rows.foldl (applyEpisode dates) flags).getD i 0 =
        if ∃ r ∈ rows, r.initStart.key < (dates.getD i dummyDate).key ∧
            (dates.getD i dummyDate).key < r.initEnd.key
        then 1 else flags.getD i 0 := by
  intro rows
  induction rows with
  | nil =>
    intro flags h i hi
    simp
  | cons r rows ih =>
    intro flags h i hi
    rw [List.foldl_cons,
        ih (applyEpisode dates flags r) (length_applyEpisode dates flags r h) i hi]
    have happ : (applyEpisode dates flags r).getD i 0 =
        if r.initStart.key < (dates.getD i dummyDate).key ∧
            (dates.getD i dummyDate).key < r.initEnd.key then 1 else flags.getD i 0 := by
      rw [applyEpisode, getD_zipWith _ hi (h ▸ hi) dummyDate 0 0]
    rw [happ]
    simp only [List.mem_cons, exists_eq_or_imp]
    by_cases h1 : ∃ r' ∈ rows, r'.initStart.key < (dates.getD i dummyDate).key ∧
        (dates.getD i dummyDate).key < r'.initEnd.key
    · rw [if_pos h1, if_pos (Or.inr h1)]
    · by_cases h2 : r.initStart.key < (dates.getD i dummyDate).key ∧
          (dates.getD i dummyDate).key < r.initEnd.key
      · rw [if_neg h1, if_pos h2, if_pos (Or.inl h2)]
      · rw [if_neg h1, if_neg h2, if_neg (not_or.mpr ⟨h2, h1⟩)]

theorem buildRecessionRows_fields {starts ends0 : List SDate} {today : SDate}
    {r : RecessionRow} (hr : r ∈ buildRecessionRows starts ends0 today) :
    r.initStart = r.start.monthStart.minus1y ∧ r.initEnd = r.start.monthStart.minus1mo := by
  rw [buildRecessionRows] at hr
  simp only [List.mem_map, List.mem_range] at hr
  obtain ⟨i, hi, rfl⟩ := hr
  have histarts : i < starts.length := by
    simp only [List.length_map] at hi
    omega
  constructor
  · show (starts.map (fun s => s.monthStart.minus1y)).getD i dummyDate =
      ((starts.getD i dummyDate).monthStart.minus1y)
    rw [getD_map _ histarts dummyDate dummyDate]
  · show (starts.map (fun s => s.monthStart.minus1mo)).getD i dummyDate =
      ((starts.getD i dummyDate).monthStart.minus1mo)
    rw [getD_map _ histarts dummyDate dummyDate]

theorem retainedRows_subset {dates starts ends0 : List SDate} {today : SDate}
    {r : RecessionRow} (hr : r ∈ retainedRows dates starts ends0 today) :
    r ∈ buildRecessionRows starts ends0 today := by
  rw [retainedRows] at hr
  rcases hmin : (dates.map SDate.key).min? with _ | mk <;> rw [hmin] at hr
  · exact hr
  · exact (List.mem_filter.mp hr).1

theorem retainedRows_min {dates starts ends0 : List SDate} {today : SDate}
    {r : RecessionRow} (hr : r ∈ retainedRows dates starts ends0 today)
    {mk : ℤ} (hmk : (dates.map SDate.key).min? = some mk) : mk ≤ r.start.key := by
  rw [retainedRows, hmk] at hr
  have h2 := (List.mem_filter.mp hr).2
  simpa using h2

/-- C7: when the labeler runs (some start date exists), the binary flag at
grid day `i` is 1 exactly when the day lies strictly inside the
initiation window of some retained episode, and 0 otherwise; each
retained episode's window bounds are month-start(start) minus one year
and month-start(start) minus one month, and every retained episode starts
at or after the grid's earliest date (episodes starting earlier are
dropped and contribute no flagged day). -/
theorem recinit_flag_iff (dates starts ends0 : List SDate) (today : SDate) (fl : List ℤ)
    (hfl : add_recession_features_flags dates starts ends0 today = some fl)
    (i : ℕ) (hi : i < dates.length) :
    (fl.getD i 0 =
      if ∃ r ∈ retainedRows dates starts ends0 today,
          r.initStart.key < (dates.getD i dummyDate).key ∧
          (dates.getD i dummyDate).key < r.initEnd.key
      then 1 else 0) ∧
    (∀ r ∈ retainedRows dates starts ends0 today,
      r.initStart = r.start.monthStart.minus1y ∧
      r.initEnd = r.start.monthStart.minus1mo ∧
      ∀ mk : ℤ, (dates.map SDate.key).min? = some mk → mk ≤ r.start.key) := by
  have hfl' : fl = recInitFlags dates starts ends0 today := by
    rw [add_recession_features_flags] at hfl
    rcases hse : starts.isEmpty with _ | _ <;> rw [hse] at hfl
    · simp only [Bool.false_eq_true, if_false] at hfl
      exact (Option.some.inj hfl).symm
    · simp only [if_true] at hfl
      exact Option.noConfusion hfl
  constructor
  · rw [hfl', recInitFlags,
        foldl_applyEpisode_getD dates _ (List.replicate dates.length 0)
          (List.length_replicate _ _) i hi,
        getD_replicate_zero]
  · intro r hr
    obtain ⟨h1, h2⟩ := buildRecessionRows_fields (retainedRows_subset hr)
    exact ⟨h1, h2, fun mk hmk => retainedRows_min hr hmk⟩

/-- Witness for `recinit_flag_iff` on a three-day grid with one episode
starting 2000-12-15: the initiation window is (1999-12-01, 2000-11-01),
so days 2000-01-01 and 2000-06-01 are flagged. -/
theorem recinit_flag_iff_witness :
    add_recession_features_flags
        [⟨2000, 1, 1⟩, ⟨2000, 6, 1⟩, ⟨2001, 1, 1⟩] [⟨2000, 12, 15⟩] [] ⟨2026, 1, 1⟩ =
      some [1, 1, 0] ∧
    (0 : ℕ) < ([⟨2000, 1, 1⟩, ⟨2000, 6, 1⟩, ⟨2001, 1, 1⟩] : List SDate).length ∧
    ([1, 1, 0] : List ℤ).getD 0 0 =
      (if ∃ r ∈ retainedRows [⟨2000, 1, 1⟩, ⟨2000, 6, 1⟩, ⟨2001, 1, 1⟩]
            [⟨2000, 12, 15⟩] [] ⟨2026, 1, 1⟩,
          r.initStart.key < (([⟨2000, 1, 1⟩, ⟨2000, 6, 1⟩, ⟨2001, 1, 1⟩] : List SDate).getD 0 dummyDate).key ∧
          (([⟨2000, 1, 1⟩, ⟨2000, 6, 1⟩, ⟨2001, 1, 1⟩] : List SDate).getD 0 dummyDate).key < r.initEnd.key
        then 1 else 0) := by
  have h := recinit_flag_iff [⟨2000, 1, 1⟩, ⟨2000, 6, 1⟩, ⟨2001, 1, 1⟩] [⟨2000, 12, 15⟩] []
    ⟨2026, 1, 1⟩ [1, 1, 0] (by decide) 0 (by decide)
  exact ⟨by decide, by decide, h.1⟩

theorem length_seriesShift (v : List EVal) (n : ℕ) : (seriesShift v n).length = v.length := by
  simp [seriesShift]

theorem length_seriesDiv (a b : List EVal) :
    (seriesDiv a b).length = min a.length b.length := by
  simp [seriesDiv]

theorem getD_map_range' {α : Type} (f : ℕ → α) {n i : ℕ} (h : i < n) (d : α) :
    (List.map f (List.range n)).getD i d = f i := by
  simp [List.getD_eq_getElem?_getD, List.getElem?_map, List.getElem?_range, h]

theorem yoyVals_getD (v : List EVal) (lag i : ℕ) (hi : i < v.length) :
    (yoyVals v lag).getD i EVal.null =
      (((v.getD i EVal.null).div
          (if i < lag then EVal.null else v.getD (i - lag) EVal.null)).sub
        (EVal.num 1)).mul (EVal.num 100) := by
  rw [yoyVals]
  have h1 : i < (seriesDiv v (seriesShift v lag)).length := by
    rw [length_seriesDiv, length_seriesShift] ; omega
  rw [getD_map _ h1 EVal.null EVal.null, seriesDiv,
      getD_zipWith _ hi (by rw [length_seriesShift] ; omega) EVal.null EVal.null EVal.null,
      seriesShift, getD_map_range' _ hi]

/-- C8: the per-symbol generator emits the three year-over-year series at
lags 1x, 4x and 5x the year length; at each lag the value at row `i` is
null for `i < lag`, and equals `(v[i]/v[i-lag] - 1) * 100` whenever both
samples are numeric with a non-zero denominator (so with a 365-day year,
row 365 is `(v[365]/v[0] - 1) * 100`). -/
theorem yoy_features_formula (v : List EVal) (pfx desc : String) (nDY : ℕ) :
    ((calculate_yoy_features_series v pfx desc nDY).1 =
      [(pfx ++ "_YoY", yoyVals v nDY), (pfx ++ "_YoY4", yoyVals v (nDY * 4)),
       (pfx ++ "_YoY5", yoyVals v (nDY * 5))]) ∧
    (∀ lag i, i < v.length → i < lag → (yoyVals v lag).getD i EVal.null = EVal.null) ∧
    (∀ (lag i : ℕ) (a b : ℚ), i < v.length → lag ≤ i →
      v.getD i EVal.null = EVal.num a → v.getD (i - lag) EVal.null = EVal.num b → b ≠ 0 →
      (yoyVals v lag).getD i EVal.null = EVal.num ((a / b - 1) * 100)) := by
  refine ⟨rfl, ?_, ?_⟩
  · intro lag i hi hlag
    rw [yoyVals_getD v lag i hi, if_pos hlag]
    cases v.getD i EVal.null <;> rfl
  · intro lag i a b hi hlag ha hb hb0
    rw [yoyVals_getD v lag i hi, if_neg (by omega), ha, hb]
    simp only [EVal.div, if_neg hb0, EVal.sub, EVal.neg, EVal.add, EVal.mul]
    congr 1
    ring

/-- Witness for `yoy_features_formula` on `[2, 3]` at lag 1. -/
theorem yoy_features_formula_witness :
    ((calculate_yoy_features_series [EVal.num 2, EVal.num 3] "X" "d" 1).1 =
      [("X_YoY", yoyVals [EVal.num 2, EVal.num 3] 1),
       ("X_YoY4", yoyVals [EVal.num 2, EVal.num 3] 4),
       ("X_YoY5", yoyVals [EVal.num 2, EVal.num 3] 5)]) ∧
    (yoyVals [EVal.num 2, EVal.num 3] 1).getD 0 EVal.null = EVal.null ∧
    (yoyVals [EVal.num 2, EVal.num 3] 1).getD 1 EVal.null =
      EVal.num (((3 : ℚ) / 2 - 1) * 100) := by
  have h := yoy_features_formula [EVal.num 2, EVal.num 3] "X" "d" 1
  refine ⟨?_, ?_, ?_⟩
  · have h14 : (1 : ℕ) * 4 = 4 := by norm_num
    have h15 : (1 : ℕ) * 5 = 5 := by norm_num
    rw [← h14, ← h15]
    exact h.1
  · exact h.2.1 1 0 (by norm_num) (by norm_num)
  · exact h.2.2 1 1 3 2 (by norm_num) (by norm_num) (by decide) (by decide) (by norm_num)

/-- C9: the moving-average generator always emits exactly three feature
columns and three metadata records; for every window with fewer non-null
samples than the window size, the emitted column is a full-grid-length
null column (never omitted) and its metadata source is flagged
"Calc (Skipped)". -/
theorem mva_skipped_schema (v : List (Option ℚ)) (pfx desc : String) (nDY : ℕ) :
    ((calculate_mva_features_series v pfx desc nDY).1.length = 3) ∧
    ((calculate_mva_features_series v pfx desc nDY).2.length = 3) ∧
    (∀ k : ℕ, v.reduceOption.length < ((mvaConfigs nDY).getD k ("", 0)).2 →
      (calculate_mva_features_series v pfx desc nDY).1.getD k ("", []) =
        (pfx ++ ((mvaConfigs nDY).getD k ("", 0)).1, List.replicate v.length none) ∧
      ((calculate_mva_features_series v pfx desc nDY).2.getD k ⟨"", "", ""⟩).source =
        "Calc (Skipped)") := by
  refine ⟨by simp [calculate_mva_features_series, mvaConfigs],
          by simp [calculate_mva_features_series, mvaConfigs], ?_⟩
  intro k hk
  match k with
  | 0 =>
    simp only [mvaConfigs, List.getD_cons_zero] at hk ⊢
    simp only [calculate_mva_features_series, mvaConfigs, List.map_cons, List.map_nil,
      List.getD_cons_zero]
    rw [if_neg (by omega), if_neg (by omega)]
    exact ⟨rfl, rfl⟩
  | 1 =>
    simp only [mvaConfigs, List.getD_cons_succ, List.getD_cons_zero] at hk ⊢
    simp only [calculate_mva_features_series, mvaConfigs, List.map_cons, List.map_nil,
      List.getD_cons_succ, List.getD_cons_zero]
    rw [if_neg (by omega), if_neg (by omega)]
    exact ⟨rfl, rfl⟩
  | 2 =>
    simp only [mvaConfigs, List.getD_cons_succ, List.getD_cons_zero] at hk ⊢
    simp only [calculate_mva_features_series, mvaConfigs, List.map_cons, List.map_nil,
      List.getD_cons_succ, List.getD_cons_zero]
    rw [if_neg (by omega), if_neg (by omega)]
    exact ⟨rfl, rfl⟩
  | n + 3 =>
    simp [mvaConfigs] at hk

/-- Witness for `mva_skipped_schema`: a one-sample series against the
200-day window. -/
theorem mva_skipped_schema_witness :
    ((calculate_mva_features_series [some (7 : ℚ)] "X" "d" 365).1.length = 3) ∧
    (([some (7 : ℚ)] : List (Option ℚ)).reduceOption.length <
      ((mvaConfigs 365).getD 1 ("", 0)).2) ∧
    ((calculate_mva_features_series [some (7 : ℚ)] "X" "d" 365).1.getD 1 ("", []) =
      ("X" ++ ((mvaConfigs 365).getD 1 ("", 0)).1, List.replicate 1 none)) ∧
    ((calculate_mva_features_series [some (7 : ℚ)] "X" "d" 365).2.getD 1 ⟨"", "", ""⟩).source =
      "Calc (Skipped)" := by
  have h := mva_skipped_schema [some (7 : ℚ)] "X" "d" 365
  have h1 := h.2.2 1 (by decide)
  exact ⟨h.1, by decide, h1.1, h1.2⟩
